import Mathlib

/-!
Verification of the Blogicum blog application (django_sprint4).

Shallow embedding of the view layer in `src/blogicum/blog/views.py` and the
forms in `src/blogicum/blog/forms.py`.  The relational data model (models.py
is not part of the sources at hand) is modelled from the specification, §3:
Category / Post / Comment entities with their flags and references.  Database
state is a record of entity lists; each view is a pure function of the
database, the current time and the request parameters.
-/

namespace Blogicum

/-- Modelled from the spec: a Category has a slug (unique identifier, here a
natural number `id`) and an `is_published` flag (models.py is not in the
sources; spec §3). -/
structure Category where
  id : Nat
  is_published : Bool
deriving DecidableEq, Repr

/-- Modelled from the spec: a Post has title, text body, publish timestamp,
`is_published` flag, an optional reference to a Category, an optional
reference to a Location, and a reference to its author (models.py is not in
the sources; spec §3).  Timestamps are integers compared with `now`. -/
structure Post where
  id : Nat
  author : Nat
  title : String
  text : String
  pub_date : Int
  is_published : Bool
  category : Option Nat
  location : Option Nat
deriving DecidableEq, Repr

/-- Modelled from the spec: a Comment has a text body and references to its
Post and its author (models.py is not in the sources; spec §3). -/
structure Comment where
  id : Nat
  post : Nat
  author : Nat
  text : String
deriving DecidableEq, Repr

/-- The persisted state: users (by id), categories, posts and comments. -/
structure DB where
  users : List Nat
  categories : List Category
  posts : List Post
  comments : List Comment
deriving DecidableEq, Repr

def findPost (db : DB) (pid : Nat) : Option Post :=
  db.posts.find? (fun p => p.id == pid)

def findComment (db : DB) (cid : Nat) : Option Comment :=
  db.comments.find? (fun c => c.id == cid)

/-- The `is_published` flag of the category with the given id (`false` when no
such category exists; in a well-formed database every referenced id exists). -/
def categoryFlag (db : DB) (cid : Nat) : Bool :=
  match db.categories.find? (fun c => c.id == cid) with
  | some c => c.is_published
  | none => false

/-- The ORM condition `category__is_published=True` of views.py line 37: a
join through the nullable category reference, so a post whose category
reference is null matches no row and the condition is false. -/
def categoryPublished (db : DB) (p : Post) : Bool :=
  match p.category with
  | some cid => categoryFlag db cid
  | none => false

/-- `get_published_posts` (views.py lines 23-40): filters a base queryset by
`pub_date__lte=now, is_published=True, category__is_published=True`.
(`select_related` only prefetches rows and has no query semantics.) -/
def get_published_posts (db : DB) (now : Int) (queryset : List Post) : List Post :=
  queryset.filter (fun p =>
    decide (p.pub_date ≤ now) && p.is_published && categoryPublished db p)

/-- The three-part public-visibility predicate of `get_published_posts`. -/
def publicVisible (db : DB) (now : Int) (p : Post) : Bool :=
  decide (p.pub_date ≤ now) && p.is_published && categoryPublished db p

/-- A post together with its `comment_count` annotation. -/
structure AnnotatedPost where
  post : Post
  comment_count : Nat
deriving DecidableEq, Repr

/-- The number of persisted comments whose post reference is `pid`
(`Count("comments")`). -/
def commentCount (db : DB) (pid : Nat) : Nat :=
  (db.comments.filter (fun c => c.post == pid)).length

/-- `annotate_comment_count` (views.py lines 43-45): annotates every post of
the queryset with the number of comments referencing it. -/
def annotate_comment_count (db : DB) (queryset : List Post) : List AnnotatedPost :=
  queryset.map (fun p => ⟨p, commentCount db p.id⟩)

/-- `order_by(*Post._meta.ordering)`.  Modelled from the spec: the Post
default ordering is by publish timestamp descending (models.py is not in the
sources; spec §3). -/
def orderFeed (l : List AnnotatedPost) : List AnnotatedPost :=
  l.insertionSort (fun a b => b.post.pub_date ≤ a.post.pub_date)

/-- `POSTS_PER_PAGE` (views.py line 20). -/
def POSTS_PER_PAGE : Nat := 10

/-- The `page` request parameter as the paginator sees it: a number, or
anything that does not parse as an integer (including an absent parameter). -/
inductive PageParam where
  | num (n : Int)
  | notANumber
deriving DecidableEq, Repr

/-- `Paginator.num_pages`: `ceil(count / per_page)`, and 1 for an empty
object list (the framework's default `allow_empty_first_page=True`). -/
def num_pages (count per_page : Nat) : Nat :=
  if count = 0 then 1 else (count + per_page - 1) / per_page

/-- `Paginator.get_page`'s page-number resolution: a non-integer parameter
falls back to page 1; a number below 1 or above `num_pages` is replaced by
the last page number. -/
def resolvePageNumber (np : Nat) (param : PageParam) : Nat :=
  match param with
  | .notANumber => 1
  | .num n => if n < 1 then np else if n > np then np else n.toNat

/-- `Paginator(queryset, per_page).get_page(number)`: the contents of the
resolved page. -/
def get_page (l : List α) (per_page : Nat) (param : PageParam) : List α :=
  (l.drop ((resolvePageNumber (num_pages l.length per_page) param - 1) * per_page)).take
    per_page

/-- `paginate_queryset` (views.py lines 48-61): paginates at
`POSTS_PER_PAGE` by default and resolves the `page` request parameter via
`Paginator.get_page`. -/
def paginate_queryset (l : List α) (param : PageParam)
    (per_page : Nat := POSTS_PER_PAGE) : List α :=
  get_page l per_page param

/-- The ordered, annotated post list built by `index` (views.py lines 64-72)
before pagination: all publicly visible posts, annotated and ordered. -/
def index_post_list (db : DB) (now : Int) : List AnnotatedPost :=
  orderFeed (annotate_comment_count db (get_published_posts db now db.posts))

/-- `index` (views.py lines 64-72): one page of the global feed. -/
def index (db : DB) (now : Int) (param : PageParam) : List AnnotatedPost :=
  paginate_queryset (index_post_list db now) param

/-- `category_posts` (views.py lines 101-114): 404 (`none`) unless a category
with the given slug exists and is published; otherwise the ordered, annotated
list of the category's publicly visible posts. -/
def category_posts (db : DB) (now : Int) (slug : Nat) : Option (List AnnotatedPost) :=
  match db.categories.find? (fun c => c.id == slug && c.is_published) with
  | none => none
  | some c =>
      some (orderFeed (annotate_comment_count db
        (get_published_posts db now
          (db.posts.filter (fun p => p.category == some c.id)))))

/-- `profile` (views.py lines 117-141): 404 (`none`) unless the user exists;
the owner sees all of their posts, any other viewer (`none` = anonymous) sees
only the owner's publicly visible posts. -/
def profile (db : DB) (now : Int) (viewer : Option Nat) (owner : Nat) :
    Option (List AnnotatedPost) :=
  if db.users.contains owner then
    if viewer == some owner then
      some (orderFeed (annotate_comment_count db
        (db.posts.filter (fun p => p.author == owner))))
    else
      some (orderFeed (annotate_comment_count db
        (get_published_posts db now (db.posts.filter (fun p => p.author == owner)))))
  else none

/-- Outcome of the post detail view. -/
inductive DetailResult where
  | found (p : Post)
  | notFound
  | serverError
deriving DecidableEq, Repr

/-- `post_detail` (views.py lines 75-98).  The visibility check on lines
80-84 is Python `and`, so `post.category.is_published` is evaluated only when
`post.pub_date <= now` and `post.is_published` both hold; for a post whose
category reference is null that evaluation raises `AttributeError`
(`serverError`).  When the check fails, a requester other than the author is
sent through a second `get_object_or_404` carrying the full published filter,
which fails (`notFound`); the author gets the post. -/
def post_detail (db : DB) (now : Int) (requester : Option Nat) (pid : Nat) :
    DetailResult :=
  match findPost db pid with
  | none => .notFound
  | some post =>
    if decide (post.pub_date ≤ now) && post.is_published then
      match post.category with
      | none => .serverError
      | some cid =>
        if categoryFlag db cid then .found post
        else if requester == some post.author then .found post
        else .notFound
    else
      if requester == some post.author then .found post
      else .notFound

/-- The fields carried by `PostForm` (forms.py lines 8-16): every editable
Post field except `author`, which the form excludes. -/
structure PostFormData where
  title : String
  text : String
  pub_date : Int
  is_published : Bool
  category : Option Nat
  location : Option Nat
deriving DecidableEq, Repr

/-- `PostCreateView.form_valid` (views.py lines 162-164): the new post's
author is the authenticated requester, never form data. -/
def mkPostFromForm (nid requester : Nat) (d : PostFormData) : Post :=
  ⟨nid, requester, d.title, d.text, d.pub_date, d.is_published, d.category, d.location⟩

/-- `PostCreateView` (views.py lines 155-169), successful submission: insert
a new post whose author is the requester.  `nid` is the fresh primary key. -/
def post_create (db : DB) (requester : Nat) (d : PostFormData) (nid : Nat) : DB :=
  { db with posts := db.posts ++ [mkPostFromForm nid requester d] }

/-- Saving `PostForm` on an existing instance: every field except the
excluded `author` (and the primary key) is overwritten from the form. -/
def applyPostForm (q : Post) (d : PostFormData) : Post :=
  { q with title := d.title, text := d.text, pub_date := d.pub_date,
           is_published := d.is_published, category := d.category,
           location := d.location }

/-- Outcome of an edit/delete handler. -/
inductive HandlerResult where
  | redirectPostDetail (pid : Nat)
  | ok
  | notFound
deriving DecidableEq, Repr

/-- `PostUpdateView` (views.py lines 172-187): 404 when the post does not
exist; `dispatch` redirects a non-author to the post's detail page without
touching the database; the author's valid submission saves the form. -/
def post_update (db : DB) (requester pid : Nat) (d : PostFormData) :
    HandlerResult × DB :=
  match findPost db pid with
  | none => (.notFound, db)
  | some post =>
    if post.author != requester then (.redirectPostDetail post.id, db)
    else
      let newPosts := db.posts.map (fun q => if q.id == pid then applyPostForm q d else q)
      (.ok, { db with posts := newPosts })

/-- `PostDeleteView` (views.py lines 190-206): 404 when the post does not
exist; `dispatch` redirects a non-author to the post's detail page without
touching the database; the author's confirmation deletes the post (comments
on it cascade away; spec §3 lifecycle). -/
def post_delete (db : DB) (requester pid : Nat) : HandlerResult × DB :=
  match findPost db pid with
  | none => (.notFound, db)
  | some post =>
    if post.author != requester then (.redirectPostDetail post.id, db)
    else (.ok, { db with posts := db.posts.filter (fun q => q.id != pid),
                         comments := db.comments.filter (fun c => c.post != pid) })

/-- Modelled from the spec: `CommentForm` validity — the comment text must be
non-empty (spec §4.4 "validates text is non-empty"; the Comment model's field
constraints are in models.py, which is not in the sources). -/
def commentFormValid (text : String) : Bool :=
  text != ""

/-- `add_comment` (views.py lines 209-219): 404 (`none`) iff no post with the
given id exists — no visibility condition; a valid form appends one comment
authored by the requester and linked to the post; valid or not, the requester
is redirected to the post's detail page.  `nid` is the fresh primary key. -/
def add_comment (db : DB) (requester pid : Nat) (text : String) (nid : Nat) :
    Option (HandlerResult × DB) :=
  match findPost db pid with
  | none => none
  | some _ =>
    if commentFormValid text then
      some (.redirectPostDetail pid,
        { db with comments := db.comments ++ [⟨nid, pid, requester, text⟩] })
    else
      some (.redirectPostDetail pid, db)

/-- `CommentUpdateView` (views.py lines 222-237): 404 when the comment does
not exist; `dispatch` redirects a non-author to the parent post's detail page
without touching the database; the author's valid submission saves the new
text. -/
def comment_update (db : DB) (requester cid : Nat) (newText : String) :
    HandlerResult × DB :=
  match findComment db cid with
  | none => (.notFound, db)
  | some comment =>
    if comment.author != requester then (.redirectPostDetail comment.post, db)
    else
      let newComments :=
        db.comments.map (fun c => if c.id == cid then { c with text := newText } else c)
      (.ok, { db with comments := newComments })

/-- `CommentDeleteView` (views.py lines 240-254): 404 when the comment does
not exist; `dispatch` redirects a non-author to the parent post's detail page
without touching the database; the author's confirmation deletes the
comment. -/
def comment_delete (db : DB) (requester cid : Nat) : HandlerResult × DB :=
  match findComment db cid with
  | none => (.notFound, db)
  | some comment =>
    if comment.author != requester then (.redirectPostDetail comment.post, db)
    else (.ok, { db with comments := db.comments.filter (fun c => c.id != cid) })

end Blogicum

namespace Blogicum

/-! ### Helper lemmas -/

theorem mem_orderFeed {ap : AnnotatedPost} {l : List AnnotatedPost} :
    ap ∈ orderFeed l ↔ ap ∈ l :=
  (List.perm_insertionSort _ l).mem_iff

theorem map_post_annotate (db : DB) (qs : List Post) :
    (annotate_comment_count db qs).map AnnotatedPost.post = qs := by
  induction qs with
  | nil => rfl
  | cons a t ih => simpa [annotate_comment_count] using ih

theorem mem_feed_posts {p : Post} (db : DB) (qs : List Post) :
    p ∈ (orderFeed (annotate_comment_count db qs)).map AnnotatedPost.post ↔ p ∈ qs := by
  constructor
  · intro hmem
    rw [List.mem_map] at hmem
    obtain ⟨ap, hap, rfl⟩ := hmem
    rw [mem_orderFeed] at hap
    have h2 : ap.post ∈ (annotate_comment_count db qs).map AnnotatedPost.post :=
      List.mem_map_of_mem _ hap
    rwa [map_post_annotate] at h2
  · intro hp
    rw [List.mem_map]
    refine ⟨⟨p, commentCount db p.id⟩, ?_, rfl⟩
    rw [mem_orderFeed]
    simp only [annotate_comment_count, List.mem_map]
    exact ⟨p, hp, rfl⟩

theorem categoryPublished_eq_true_iff (db : DB) (p : Post) :
    categoryPublished db p = true ↔
      ∃ cid, p.category = some cid ∧ categoryFlag db cid = true := by
  unfold categoryPublished
  cases hc : p.category with
  | none => simp
  | some cid => simp

theorem mem_get_published_posts (db : DB) (now : Int) (qs : List Post) (p : Post) :
    p ∈ get_published_posts db now qs ↔
      p ∈ qs ∧ p.pub_date ≤ now ∧ p.is_published = true ∧ categoryPublished db p = true := by
  unfold get_published_posts
  rw [List.mem_filter]
  simp [and_assoc]

theorem publicVisible_eq_true_iff (db : DB) (now : Int) (p : Post) :
    publicVisible db now p = true ↔
      p.pub_date ≤ now ∧ p.is_published = true ∧ categoryPublished db p = true := by
  simp [publicVisible, and_assoc]

/-! ### Claim theorems -/

/-- C1: a post appears in the global feed (the list built by `index`) iff its
publish timestamp is at most `now`, it is flagged published, and its category
reference points at a category flagged published — so a post whose category
reference is null appears for no category and is excluded. -/
theorem global_feed_membership (db : DB) (now : Int) (p : Post) :
    p ∈ (index_post_list db now).map AnnotatedPost.post ↔
      p ∈ db.posts ∧ p.pub_date ≤ now ∧ p.is_published = true ∧
        ∃ cid, p.category = some cid ∧ categoryFlag db cid = true := by
  unfold index_post_list
  rw [mem_feed_posts, mem_get_published_posts, categoryPublished_eq_true_iff]

/-- C2: the profile owner's own feed contains exactly the owner's posts,
regardless of published flags and timestamps; any other viewer's view of the
profile feed contains exactly the owner's posts satisfying the
public-visibility predicate. -/
theorem profile_feed_membership (db : DB) (now : Int) (owner : Nat) (p : Post)
    (howner : db.users.contains owner = true) :
    (p ∈ ((profile db now (some owner) owner).getD []).map AnnotatedPost.post ↔
        p ∈ db.posts ∧ p.author = owner) ∧
    (∀ viewer : Option Nat, viewer ≠ some owner →
      (p ∈ ((profile db now viewer owner).getD []).map AnnotatedPost.post ↔
        p ∈ db.posts ∧ p.author = owner ∧ publicVisible db now p = true)) := by
  constructor
  · simp only [profile, howner, if_true, beq_self_eq_true, Option.getD_some]
    rw [mem_feed_posts, List.mem_filter]
    simp
  · intro viewer hv
    have hve : (viewer == some owner) = false := by
      simpa using hv
    simp only [profile, howner, hve, if_true, Bool.false_eq_true, if_false,
      Option.getD_some]
    rw [mem_feed_posts, mem_get_published_posts, List.mem_filter,
      publicVisible_eq_true_iff]
    simp [and_assoc]

def wPost2 : Post := ⟨1, 1, "t", "b", 0, false, none, none⟩

def wDb2 : DB := ⟨[1, 2], [], [wPost2], []⟩

/-- C2 witness: an unpublished post is in its author's own profile feed and
absent from the feed another viewer sees. -/
theorem profile_feed_membership_witness :
    wPost2 ∈ ((profile wDb2 5 (some 1) 1).getD []).map AnnotatedPost.post ∧
    wPost2 ∉ ((profile wDb2 5 (some 2) 1).getD []).map AnnotatedPost.post := by
  constructor
  · exact (profile_feed_membership wDb2 5 1 wPost2 (by decide)).1.mpr (by decide)
  · intro hmem
    have h2 := ((profile_feed_membership wDb2 5 1 wPost2 (by decide)).2 (some 2)
      (by decide)).mp hmem
    exact absurd h2.2.2 (by decide)

def exPost3 : Post := ⟨1, 1, "t", "b", 0, true, none, none⟩

def exDb3 : DB := ⟨[1, 2], [], [exPost3], []⟩

/-- C3, evaluated at the failing input: a past-dated, published post whose
category reference is null.  The claim (and spec §3/§8) says the author sees
the post and any other requester gets not-found; the code instead evaluates
`post.category.is_published` on a null reference and raises — a server error
for the author and for everyone else. -/
theorem post_detail_null_category_crash :
    exPost3.category = none ∧ exPost3.is_published = true ∧ exPost3.pub_date ≤ 5 ∧
    post_detail exDb3 5 (some 1) 1 = DetailResult.serverError ∧
    post_detail exDb3 5 (some 2) 1 = DetailResult.serverError := by
  decide

/-- C4: an authenticated requester who is not the author of a post or comment
and attempts to edit or delete it is redirected to the item's post-detail
page — never an error response — and the database is unchanged. -/
theorem nonowner_edit_delete_redirects (db : DB) (r : Nat) :
    (∀ pid post d, findPost db pid = some post → post.author ≠ r →
      post_update db r pid d = (HandlerResult.redirectPostDetail post.id, db)) ∧
    (∀ pid post, findPost db pid = some post → post.author ≠ r →
      post_delete db r pid = (HandlerResult.redirectPostDetail post.id, db)) ∧
    (∀ cid comment t, findComment db cid = some comment → comment.author ≠ r →
      comment_update db r cid t = (HandlerResult.redirectPostDetail comment.post, db)) ∧
    (∀ cid comment, findComment db cid = some comment → comment.author ≠ r →
      comment_delete db r cid = (HandlerResult.redirectPostDetail comment.post, db)) := by
  refine ⟨?_, ?_, ?_, ?_⟩
  · intro pid post d hf hne
    simp [post_update, hf, hne]
  · intro pid post hf hne
    simp [post_delete, hf, hne]
  · intro cid comment t hf hne
    simp [comment_update, hf, hne]
  · intro cid comment hf hne
    simp [comment_delete, hf, hne]

def wPost4 : Post := ⟨1, 1, "t", "b", 0, true, none, none⟩

def wComment4 : Comment := ⟨1, 1, 1, "c"⟩

def wDb4 : DB := ⟨[1, 2], [], [wPost4], [wComment4]⟩

/-- C4 witness: user 2 attempting to edit or delete user 1's post and comment
is redirected to the post's detail page and the database is untouched. -/
theorem nonowner_edit_delete_redirects_witness :
    post_update wDb4 2 1 ⟨"x", "y", 1, false, none, none⟩ =
      (HandlerResult.redirectPostDetail 1, wDb4) ∧
    post_delete wDb4 2 1 = (HandlerResult.redirectPostDetail 1, wDb4) ∧
    comment_update wDb4 2 1 "z" = (HandlerResult.redirectPostDetail 1, wDb4) ∧
    comment_delete wDb4 2 1 = (HandlerResult.redirectPostDetail 1, wDb4) := by
  have h := nonowner_edit_delete_redirects wDb4 2
  exact ⟨h.1 1 wPost4 ⟨"x", "y", 1, false, none, none⟩ (by decide) (by decide),
         h.2.1 1 wPost4 (by decide) (by decide),
         h.2.2.1 1 wComment4 "z" (by decide) (by decide),
         h.2.2.2 1 wComment4 (by decide) (by decide)⟩

/-- C5: for an existing post, an authenticated submission with empty text
creates no comment and redirects to the post's detail page; a submission with
non-empty text appends exactly one comment, authored by the requester and
referencing the post, followed by the same redirect. -/
theorem add_comment_empty_text (db : DB) (r pid nid : Nat) (text : String)
    (post : Post) (hfind : findPost db pid = some post) :
    (text = "" → add_comment db r pid text nid =
        some (HandlerResult.redirectPostDetail pid, db)) ∧
    (text ≠ "" → add_comment db r pid text nid =
        some (HandlerResult.redirectPostDetail pid,
          { db with comments := db.comments ++ [⟨nid, pid, r, text⟩] })) := by
  constructor
  · intro he
    subst he
    simp [add_comment, hfind, commentFormValid]
  · intro hne
    simp [add_comment, hfind, commentFormValid, hne]

def wPost5 : Post := ⟨1, 1, "t", "b", 0, true, none, none⟩

def wDb5 : DB := ⟨[1, 2], [], [wPost5], []⟩

/-- C5 witness: on post 1, an empty submission leaves the database unchanged
and a non-empty one appends the single comment. -/
theorem add_comment_empty_text_witness :
    add_comment wDb5 2 1 "" 7 = some (HandlerResult.redirectPostDetail 1, wDb5) ∧
    add_comment wDb5 2 1 "hi" 7 =
      some (HandlerResult.redirectPostDetail 1,
        { wDb5 with comments := [⟨7, 1, 2, "hi"⟩] }) := by
  constructor
  · exact (add_comment_empty_text wDb5 2 1 7 "" wPost5 (by decide)).1 rfl
  · have h := (add_comment_empty_text wDb5 2 1 7 "hi" wPost5 (by decide)).2 (by decide)
    simpa using h

theorem num_pages_pos (c : Nat) : 1 ≤ num_pages c POSTS_PER_PAGE := by
  unfold num_pages POSTS_PER_PAGE
  split <;> omega

theorem last_page_start_lt (l : List AnnotatedPost) (hne : l ≠ []) :
    (num_pages l.length POSTS_PER_PAGE - 1) * POSTS_PER_PAGE < l.length := by
  have hlen : 0 < l.length := List.length_pos.mpr hne
  unfold num_pages POSTS_PER_PAGE
  split <;> omega

/-- C6: feeds paginate at the fixed page size 10; a numeric page parameter
beyond the last page yields the last page's contents (non-empty whenever the
feed is non-empty), and a non-numeric page parameter falls back to page 1. -/
theorem pagination_clamps :
    POSTS_PER_PAGE = 10 ∧
    (∀ (l : List AnnotatedPost) (param : PageParam),
      paginate_queryset l param = get_page l 10 param) ∧
    (∀ (l : List AnnotatedPost) (n : Int),
      (num_pages l.length POSTS_PER_PAGE : Int) < n →
      paginate_queryset l (PageParam.num n) =
        paginate_queryset l (PageParam.num (num_pages l.length POSTS_PER_PAGE))) ∧
    (∀ (l : List AnnotatedPost) (n : Int), l ≠ [] →
      (num_pages l.length POSTS_PER_PAGE : Int) < n →
      paginate_queryset l (PageParam.num n) ≠ []) ∧
    (∀ l : List AnnotatedPost,
      paginate_queryset l PageParam.notANumber = l.take POSTS_PER_PAGE) := by
  refine ⟨rfl, fun l param => rfl, ?_, ?_, ?_⟩
  · intro l n hn
    have h1 := num_pages_pos l.length
    simp only [paginate_queryset, get_page, resolvePageNumber]
    rw [if_neg (by omega : ¬ n < 1), if_pos (by omega : n > (num_pages l.length POSTS_PER_PAGE : Int)),
      if_neg (by omega : ¬ ((num_pages l.length POSTS_PER_PAGE : Int)) < 1),
      if_neg (by omega : ¬ ((num_pages l.length POSTS_PER_PAGE : Int)) > (num_pages l.length POSTS_PER_PAGE : Int)),
      Int.toNat_natCast]
  · intro l n hne hn
    have h1 := num_pages_pos l.length
    have h2 := last_page_start_lt l hne
    apply List.ne_nil_of_length_pos
    simp only [paginate_queryset, get_page, resolvePageNumber]
    rw [if_neg (by omega : ¬ n < 1), if_pos (by omega : n > (num_pages l.length POSTS_PER_PAGE : Int))]
    rw [List.length_take, List.length_drop]
    revert h2
    unfold POSTS_PER_PAGE
    omega
  · intro l
    simp [paginate_queryset, get_page, resolvePageNumber]

def wAp6 : AnnotatedPost := ⟨⟨1, 1, "t", "b", 0, true, none, none⟩, 0⟩

def wFeed6 : List AnnotatedPost := List.replicate 11 wAp6

/-- C6 witness: on an 11-element feed (2 pages of 10), page 5 equals page 2
and is non-empty, and a non-numeric parameter yields page 1. -/
theorem pagination_clamps_witness :
    paginate_queryset wFeed6 (PageParam.num 5) =
      paginate_queryset wFeed6 (PageParam.num 2) ∧
    paginate_queryset wFeed6 (PageParam.num 5) ≠ [] ∧
    paginate_queryset wFeed6 PageParam.notANumber = wFeed6.take 10 := by
  have h := pagination_clamps
  refine ⟨?_, h.2.2.2.1 wFeed6 5 (by decide) (by decide), ?_⟩
  · have h2 := h.2.2.1 wFeed6 5 (by decide)
    simpa using h2
  · have h4 := h.2.2.2.2 wFeed6
    simpa using h4

theorem comment_count_eq_aux (db : DB) (qs : List Post) (ap : AnnotatedPost)
    (h : ap ∈ orderFeed (annotate_comment_count db qs)) :
    ap.comment_count = (db.comments.filter (fun c => c.post == ap.post.id)).length := by
  rw [mem_orderFeed] at h
  simp only [annotate_comment_count, List.mem_map] at h
  obtain ⟨p, _, rfl⟩ := h
  rfl

/-- C7: in every feed — global, category or profile — each post's
`comment_count` annotation equals the number of persisted comments whose post
reference is that post. -/
theorem feed_comment_count_correct (db : DB) (now : Int) (ap : AnnotatedPost) :
    (ap ∈ index_post_list db now →
      ap.comment_count = (db.comments.filter (fun c => c.post == ap.post.id)).length) ∧
    (∀ slug f, category_posts db now slug = some f → ap ∈ f →
      ap.comment_count = (db.comments.filter (fun c => c.post == ap.post.id)).length) ∧
    (∀ viewer owner f, profile db now viewer owner = some f → ap ∈ f →
      ap.comment_count = (db.comments.filter (fun c => c.post == ap.post.id)).length) := by
  refine ⟨?_, ?_, ?_⟩
  · intro h
    unfold index_post_list at h
    exact comment_count_eq_aux db _ ap h
  · intro slug f hf hmem
    unfold category_posts at hf
    split at hf
    · exact absurd hf (by simp)
    · injection hf with hf
      subst hf
      exact comment_count_eq_aux db _ ap hmem
  · intro viewer owner f hf hmem
    unfold profile at hf
    split at hf
    · split at hf
      · injection hf with hf
        subst hf
        exact comment_count_eq_aux db _ ap hmem
      · injection hf with hf
        subst hf
        exact comment_count_eq_aux db _ ap hmem
    · exact absurd hf (by simp)

def wCat7 : Category := ⟨3, true⟩

def wPost7 : Post := ⟨1, 1, "t", "b", 0, true, some 3, none⟩

def wDb7 : DB := ⟨[1], [wCat7], [wPost7], [⟨1, 1, 1, "a"⟩, ⟨2, 1, 2, "b"⟩]⟩

/-- C7 witness: post 1 appears in the global feed annotated with 2, the
number of persisted comments referencing it. -/
theorem feed_comment_count_correct_witness :
    (⟨wPost7, 2⟩ : AnnotatedPost) ∈ index_post_list wDb7 5 ∧
    (⟨wPost7, 2⟩ : AnnotatedPost).comment_count =
      (wDb7.comments.filter (fun c => c.post == wPost7.id)).length := by
  have hmem : (⟨wPost7, 2⟩ : AnnotatedPost) ∈ index_post_list wDb7 5 := by decide
  exact ⟨hmem, (feed_comment_count_correct wDb7 5 ⟨wPost7, 2⟩).1 hmem⟩

def exPost8 : Post := ⟨1, 1, "t", "b", 10, true, none, none⟩

def exDb8 : DB := ⟨[1, 2], [], [exPost8], []⟩

/-- C8 counterexample: a post with a null category reference and a future
publish timestamp, requested by a non-author, yields not-found — not a server
error as the claim states.  Python's short-circuit `and` never reaches
`post.category.is_published` when `pub_date <= now` fails. -/
theorem null_category_future_post_not_error :
    exPost8.category = none ∧ (5 : Int) < exPost8.pub_date ∧
    (some 2 : Option Nat) ≠ some exPost8.author ∧
    post_detail exDb8 5 (some 2) 1 = DetailResult.notFound := by
  decide

/-- C8 amended: for a post whose category reference is null, the detail view
raises (server error) iff the first two visibility conjuncts hold —
`pub_date ≤ now` and `is_published` — because Python's short-circuit `and`
only then dereferences `post.category.is_published`; the crash hits every
requester, the author included.  Otherwise no crash occurs: the author gets
the post and any other requester gets not-found. -/
theorem null_category_crash_iff (db : DB) (now : Int) (requester : Option Nat)
    (pid : Nat) (post : Post) (hfind : findPost db pid = some post)
    (hcat : post.category = none) :
    post_detail db now requester pid = DetailResult.serverError ↔
      post.pub_date ≤ now ∧ post.is_published = true := by
  simp only [post_detail, hfind, hcat]
  by_cases h1 : (decide (post.pub_date ≤ now) && post.is_published) = true
  · rw [if_pos h1]
    simp only [Bool.and_eq_true, decide_eq_true_eq] at h1
    simp [h1]
  · rw [if_neg h1]
    constructor
    · intro he
      by_cases h2 : (requester == some post.author) = true
      · rw [if_pos h2] at he
        exact DetailResult.noConfusion he
      · rw [if_neg h2] at he
        exact DetailResult.noConfusion he
    · intro hr
      exact absurd (by simp [hr.1, hr.2]) h1

/-- C8 amended witness: the null-category post of the counterexample, once
`now` has passed its publish timestamp, produces the server error — even for
its own author. -/
theorem null_category_crash_iff_witness :
    post_detail exDb8 20 (some 1) 1 = DetailResult.serverError := by
  exact (null_category_crash_iff exDb8 20 (some 1) 1 exPost8 (by decide)
    (by decide)).mpr (by decide)

/-- C9: the author field never comes from form data.  Creation appends a post
whose author is the authenticated requester; an update rewrites only the
`PostForm` fields, leaving every post's author (and id) unchanged; deletion
only removes posts.  Hence a post's author always equals its creator. -/
theorem post_author_invariant (db : DB) (r nid pid : Nat) (d : PostFormData) :
    ((post_create db r d nid).posts = db.posts ++ [mkPostFromForm nid r d] ∧
      (mkPostFromForm nid r d).author = r) ∧
    ((post_update db r pid d).2.posts.map Post.author = db.posts.map Post.author ∧
      (post_update db r pid d).2.posts.map Post.id = db.posts.map Post.id) ∧
    List.Sublist (post_delete db r pid).2.posts db.posts := by
  refine ⟨⟨rfl, rfl⟩, ?_, ?_⟩
  · unfold post_update
    cases hf : findPost db pid with
    | none => exact ⟨rfl, rfl⟩
    | some post =>
      dsimp only
      by_cases hb : (post.author != r) = true
      · rw [if_pos hb]
        exact ⟨rfl, rfl⟩
      · rw [if_neg hb]
        have haux : ∀ l : List Post,
            (l.map fun q => if q.id == pid then applyPostForm q d else q).map Post.author
              = l.map Post.author ∧
            (l.map fun q => if q.id == pid then applyPostForm q d else q).map Post.id
              = l.map Post.id := by
          intro l
          induction l with
          | nil => exact ⟨rfl, rfl⟩
          | cons a t ih =>
            have h1 : (if a.id == pid then applyPostForm a d else a).author = a.author := by
              split <;> rfl
            have h2 : (if a.id == pid then applyPostForm a d else a).id = a.id := by
              split <;> rfl
            simp only [List.map_cons, h1, h2, ih.1, ih.2, and_self]
        exact haux db.posts
  · unfold post_delete
    cases hf : findPost db pid with
    | none => exact List.Sublist.refl _
    | some post =>
      dsimp only
      by_cases hb : (post.author != r) = true
      · rw [if_pos hb]
      · rw [if_neg hb]
        exact List.filter_sublist _

/-- C10: `add_comment` looks the post up by primary key only: it answers
not-found exactly when no post with the given id exists, and a valid
submission creates the comment on any existing post — the statement carries
no visibility hypothesis, and the last conjunct makes the point for a post
the requester cannot view. -/
theorem add_comment_ignores_visibility (db : DB) (now : Int) (r pid nid : Nat)
    (text : String) :
    (add_comment db r pid text nid = none ↔ findPost db pid = none) ∧
    (∀ post, findPost db pid = some post → commentFormValid text = true →
      add_comment db r pid text nid =
        some (HandlerResult.redirectPostDetail pid,
          { db with comments := db.comments ++ [⟨nid, pid, r, text⟩] })) ∧
    (∀ post, findPost db pid = some post → publicVisible db now post = false →
      commentFormValid text = true →
      add_comment db r pid text nid =
        some (HandlerResult.redirectPostDetail pid,
          { db with comments := db.comments ++ [⟨nid, pid, r, text⟩] })) := by
  refine ⟨?_, ?_, ?_⟩
  · unfold add_comment
    cases hf : findPost db pid with
    | none => simp
    | some post =>
      by_cases hv : commentFormValid text = true
      · simp [hv]
      · simp [hv]
  · intro post hf hv
    simp [add_comment, hf, hv]
  · intro post hf _hvis hv
    simp [add_comment, hf, hv]

def wPost10 : Post := ⟨1, 1, "t", "b", 0, false, none, none⟩

def wDb10 : DB := ⟨[1, 2], [], [wPost10], []⟩

/-- C10 witness: post 1 is not publicly visible (unpublished, null category),
yet user 2's valid submission creates a comment on it. -/
theorem add_comment_ignores_visibility_witness :
    publicVisible wDb10 5 wPost10 = false ∧
    add_comment wDb10 2 1 "hi" 7 =
      some (HandlerResult.redirectPostDetail 1,
        { wDb10 with comments := [⟨7, 1, 2, "hi"⟩] }) := by
  have h := (add_comment_ignores_visibility wDb10 5 2 1 7 "hi").2.2 wPost10
    (by decide) (by decide) (by decide)
  exact ⟨by decide, by simpa using h⟩

end Blogicum
